import Mathlib

/-!
Shallow embedding of the `ChCollisionModel` class of Project Chrono
(`src/chrono/collision/ChCollisionModel.h`).

The header defines the abstract collision-model contract: a shape registry
(`m_shapes`), collision family group and mask (16-bit `short int` fields),
inward safe margin and outward envelope, and the shape-addition interface.
Member functions whose bodies appear inline in the header (`GetFamilyGroup`,
`GetFamilyMask`, `GetSafeMargin`, `GetEnvelope`, `GetSuggestedFullMargin`,
`GetNumShapes`, `GetShape`, `Add2Dpath`, `AddPoint`) are translated directly
from those bodies.  Member functions that are only declared in the header
(the constructor, `SetFamily`, `SetFamilyGroup`, `SetFamilyMask`,
`SetFamilyMaskNoCollisionWithFamily`, `SetFamilyMaskDoCollisionWithFamily`,
`GetFamilyMaskDoesCollisionWithFamily`) and the pure-virtual shape adders
(`AddSphere`) are modelled from the specification, as marked in their doc
comments.

16-bit quantities (`short int family_group`, `short int family_mask`) are
embedded as `Nat` values kept below `2 ^ 16 = 65536`, with `% 65536` applied
where a C++ store would truncate.  `double`/`float` scalar tolerances are
embedded as `ℚ`.
-/

namespace Chrono

/-- `ChVector<>`: a 3-vector, embedded with rational coordinates. -/
structure ChVector where
  x : ℚ
  y : ℚ
  z : ℚ
deriving DecidableEq

/-- `ChMatrix33<>`: a 3x3 rotation matrix, embedded with rational entries. -/
structure ChMatrix33 where
  entries : Fin 3 → Fin 3 → ℚ

/-- A sub-line of a `ChLinePath`: the header requires the path to contain only
`ChLineSegment` and `ChLineArc` sub-lines. -/
inductive ChLineSub where
  | segment (a b : ChVector)
  | arc (center : ChVector) (radius : ℚ) (angle1 angle2 : ℚ)
deriving DecidableEq

/-- `geometry::ChLinePath`: a sequence of sub-lines. -/
structure ChLinePath where
  sublines : List ChLineSub
deriving DecidableEq

/-- `ChCollisionShape`: one geometric primitive recorded in the shape
registry, tagged with its kind and parameters. -/
inductive ChCollisionShape where
  | sphere (radius : ℚ) (pos : ChVector)
  | box (hx hy hz : ℚ) (pos : ChVector)
  | cylinder (rx rz hy : ℚ) (pos : ChVector)
deriving DecidableEq

/-- A concrete collision backend, characterised by which primitive kinds it
supports: each pure-virtual `AddXxx` returns whether the child class
implements the corresponding type of geometry. -/
structure Backend where
  supportsSphere : Bool
deriving DecidableEq

/-- State of a `ChCollisionModel`: the protected fields of the class.
`family_group` and `family_mask` are 16-bit (`short int`) quantities kept as
naturals below 65536; `model_envelope` and `model_safe_margin` are the float
tolerances; `m_shapes` is the shape registry (insertion order preserved). -/
structure ChCollisionModel where
  family_group : ℕ
  family_mask : ℕ
  model_envelope : ℚ
  model_safe_margin : ℚ
  m_shapes : List ChCollisionShape
deriving DecidableEq

/-- `GetFamilyGroup`: `return family_group;`. -/
def GetFamilyGroup (m : ChCollisionModel) : ℕ := m.family_group

/-- `GetFamilyMask`: `return family_mask;`. -/
def GetFamilyMask (m : ChCollisionModel) : ℕ := m.family_mask

/-- `GetSafeMargin`: `return model_safe_margin;`. -/
def GetSafeMargin (m : ChCollisionModel) : ℚ := m.model_safe_margin

/-- `GetEnvelope`: `return model_envelope;`. -/
def GetEnvelope (m : ChCollisionModel) : ℚ := m.model_envelope

/-- `SetSafeMargin`: `model_safe_margin = (float)amargin;`.  The
implementation-defined narrowing cast `(float)` from the double argument is
passed explicitly as `toF32`; theorems constrain it to land in the
binary32-representable rationals (`IsFloat32`). -/
def SetSafeMargin (toF32 : ℚ → ℚ) (amargin : ℚ) (m : ChCollisionModel) :
    ChCollisionModel :=
  { m with model_safe_margin := toF32 amargin }

/-- `SetEnvelope`: `model_envelope = (float)amargin;`, with the narrowing
cast passed explicitly as in `SetSafeMargin`. -/
def SetEnvelope (toF32 : ℚ → ℚ) (amargin : ℚ) (m : ChCollisionModel) :
    ChCollisionModel :=
  { m with model_envelope := toF32 amargin }

/-- The rationals exactly representable as an IEEE-754 binary32 (`float`)
value: a significand of magnitude below `2 ^ 24` scaled by an integer power
of two, up or down.  The exponent range is left unbounded, which only
enlarges the set and hence only strengthens a non-representability
result. -/
def IsFloat32 (q : ℚ) : Prop :=
  ∃ (s : ℤ) (e : ℕ), s.natAbs < 2 ^ 24 ∧ (q = (s : ℚ) * 2 ^ e ∨ q * 2 ^ e = (s : ℚ))

/-- `GetSuggestedFullMargin`: `return model_envelope + model_safe_margin;`. -/
def GetSuggestedFullMargin (m : ChCollisionModel) : ℚ :=
  m.model_envelope + m.model_safe_margin

/-- `GetNumShapes`: `return (int)m_shapes.size();`. -/
def GetNumShapes (m : ChCollisionModel) : ℕ := m.m_shapes.length

/-- `GetShape`: `return m_shapes[index];`.  `std::vector` indexing with an
out-of-range index is undefined behaviour, embedded as the `none` branch of
fallible indexing. -/
def GetShape (m : ChCollisionModel) (index : ℕ) : Option ChCollisionShape :=
  m.m_shapes.get? index

/-- `Add2Dpath` default implementation in the header: ignores all arguments
and executes `return true;` without touching the registry. -/
def Add2Dpath (mpath : ChLinePath) (pos : ChVector) (rot : ChMatrix33)
    (thickness : ℚ) (m : ChCollisionModel) : ChCollisionModel × Bool :=
  (m, true)

/-- Modelled from the spec: `AddSphere` is pure virtual in the header; per the
spec each `AddXxx` appends one shape with the given parameters to the registry
and returns whether the backend supports that primitive; `false` means the
shape was NOT added. -/
def AddSphere (b : Backend) (radius : ℚ) (pos : ChVector)
    (m : ChCollisionModel) : ChCollisionModel × Bool :=
  if b.supportsSphere then
    ({ m with m_shapes := m.m_shapes ++ [ChCollisionShape.sphere radius pos] }, true)
  else
    (m, false)

/-- `AddPoint` body from the header: `this->AddSphere(radius, pos); return
true;` — the delegated call's boolean result is discarded. -/
def AddPoint (b : Backend) (radius : ℚ) (pos : ChVector)
    (m : ChCollisionModel) : ChCollisionModel × Bool :=
  ((AddSphere b radius pos m).1, true)

/-- Modelled from the spec: `SetFamilyGroup` is only declared in the header;
per the spec it stores the given group in `family_group` (the caller must
pass a value with a single bit set).  The store truncates to the 16-bit
`short int` field. -/
def SetFamilyGroup (group : ℕ) (m : ChCollisionModel) : ChCollisionModel :=
  { m with family_group := group % 65536 }

/-- Modelled from the spec: `SetFamily(n)` is sugar for
`SetFamilyGroup(1 << n)`; the family index must lie in 0..15. -/
def SetFamily (mfamily : ℕ) (m : ChCollisionModel) : ChCollisionModel :=
  SetFamilyGroup (2 ^ mfamily) m

/-- Modelled from the spec: `SetFamilyMask` is only declared in the header;
it stores the given mask in the 16-bit `family_mask` field. -/
def SetFamilyMask (mask : ℕ) (m : ChCollisionModel) : ChCollisionModel :=
  { m with family_mask := mask % 65536 }

/-- Modelled from the spec: `SetFamilyMaskNoCollisionWithFamily(n)` clears
bit `n` of the mask.  For `n ≤ 15`, `2 ^ n ^^^ 65535` is the 16-bit
complement of the one-hot mask `1 << n`. -/
def SetFamilyMaskNoCollisionWithFamily (mfamily : ℕ)
    (m : ChCollisionModel) : ChCollisionModel :=
  { m with family_mask := m.family_mask &&& (2 ^ mfamily ^^^ 65535) }

/-- Modelled from the spec: `SetFamilyMaskDoCollisionWithFamily(n)` sets bit
`n` of the mask; the store truncates to the 16-bit field. -/
def SetFamilyMaskDoCollisionWithFamily (mfamily : ℕ)
    (m : ChCollisionModel) : ChCollisionModel :=
  { m with family_mask := (m.family_mask ||| 2 ^ mfamily) % 65536 }

/-- Modelled from the spec: `GetFamilyMaskDoesCollisionWithFamily(n)` tells
whether bit `n` of the family mask is set. -/
def GetFamilyMaskDoesCollisionWithFamily (mfamily : ℕ)
    (m : ChCollisionModel) : Bool :=
  (m.family_mask &&& 2 ^ mfamily) != 0

/-- Modelled from the spec: the `ChCollisionModel` constructor is only
declared in the header; per the spec a fresh model belongs to family 0
(group = bit 0 set) and collides with all 16 families (mask = 0xFFFF), with
margin and envelope taken from the process-wide suggested defaults. -/
def mkChCollisionModel (envelope margin : ℚ) : ChCollisionModel :=
  { family_group := 1
    family_mask := 65535
    model_envelope := envelope
    model_safe_margin := margin
    m_shapes := [] }

/-- Modelled from the spec: the contact gate used by the broad phase (it
lives in backend code outside the excerpt): two models may generate contacts
only if `(A.group & B.mask) != 0 AND (B.group & A.mask) != 0`. -/
def CanCollide (A B : ChCollisionModel) : Bool :=
  ((GetFamilyGroup A &&& GetFamilyMask B) != 0) &&
  ((GetFamilyGroup B &&& GetFamilyMask A) != 0)

/-- Number of set bits among the 16 bits of a `short int` value. -/
def popCount16 (n : ℕ) : ℕ :=
  (List.range 16).countP (fun k => n.testBit k)

/-- One call of the family-group mutation interface. -/
inductive FamilyCall where
  | setFamily (mfamily : ℕ)
  | setFamilyGroup (group : ℕ)
deriving DecidableEq

/-- Apply one family-group mutation to a model. -/
def applyFamilyCall (c : FamilyCall) (m : ChCollisionModel) : ChCollisionModel :=
  match c with
  | .setFamily n => SetFamily n m
  | .setFamilyGroup g => SetFamilyGroup g m

/-- Apply a sequence of family-group mutations, left to right. -/
def applyFamilyCalls (cs : List FamilyCall) (m : ChCollisionModel) : ChCollisionModel :=
  cs.foldl (fun s c => applyFamilyCall c s) m

/-- The documented precondition of each family-group mutation: `SetFamily`
takes a family index in 0..15; `SetFamilyGroup` takes a 16-bit value with a
single bit set. -/
def FamilyCallValid (c : FamilyCall) : Prop :=
  match c with
  | .setFamily n => n ≤ 15
  | .setFamilyGroup g => g < 65536 ∧ popCount16 g = 1

instance (c : FamilyCall) : Decidable (FamilyCallValid c) := by
  unfold FamilyCallValid
  cases c <;> infer_instance

/-! Helper lemmas. -/

/-- A one-hot 16-bit value has population count 1, even after the 16-bit
store truncation. -/
theorem popCount16_two_pow_mod (k : ℕ) (hk : k ≤ 15) :
    popCount16 (2 ^ k % 65536) = 1 := by
  interval_cases k <;> decide

/-- Each valid family-group mutation leaves the group one-hot. -/
theorem applyFamilyCall_single_bit (c : FamilyCall) (m : ChCollisionModel)
    (hc : FamilyCallValid c) :
    popCount16 (GetFamilyGroup (applyFamilyCall c m)) = 1 := by
  cases c with
  | setFamily n =>
      exact popCount16_two_pow_mod n hc
  | setFamilyGroup g =>
      obtain ⟨hg, hpc⟩ := hc
      show popCount16 (g % 65536) = 1
      rw [Nat.mod_eq_of_lt hg]
      exact hpc

/-- A valid sequence of family-group mutations preserves one-hotness. -/
theorem applyFamilyCalls_single_bit (cs : List FamilyCall) (m : ChCollisionModel)
    (hm : popCount16 (GetFamilyGroup m) = 1) (hv : ∀ c ∈ cs, FamilyCallValid c) :
    popCount16 (GetFamilyGroup (applyFamilyCalls cs m)) = 1 := by
  induction cs generalizing m with
  | nil => exact hm
  | cons c cs ih =>
      refine ih (applyFamilyCall c m) (applyFamilyCall_single_bit c m ?_) ?_
      · exact hv c (List.mem_cons_self c cs)
      · intro d hd
        exact hv d (List.mem_cons_of_mem c hd)

/-- The membership test of the family mask is the bit test at the family
index. -/
theorem getFamilyMaskDoes_eq_testBit (m : ChCollisionModel) (k : ℕ) :
    GetFamilyMaskDoesCollisionWithFamily k m = m.family_mask.testBit k := by
  unfold GetFamilyMaskDoesCollisionWithFamily
  rw [Nat.and_two_pow]
  cases h : m.family_mask.testBit k <;> simp [h]

/-- `2 ^ 24 + 1 = 16777217` is exactly representable as a binary64 double
but needs 25 significand bits, so no binary32 value equals it: it is odd,
so any scaling by a positive power of two is ruled out, and as a bare
significand it exceeds `2 ^ 24 - 1`. -/
theorem not_isFloat32_16777217 : ¬ IsFloat32 16777217 := by
  rintro ⟨s, e, hs, h | h⟩
  · have h' : (16777217 : ℤ) = s * 2 ^ e := by exact_mod_cast h
    have hs' : s.natAbs < 16777216 := by norm_num at hs; exact hs
    rcases Nat.eq_zero_or_pos e with he | he
    · subst he
      simp at h'
      omega
    · have hdvd : (2 : ℤ) ∣ s * 2 ^ e := Dvd.dvd.mul_left (dvd_pow_self 2 he.ne') s
      rw [← h'] at hdvd
      omega
  · have h' : (16777217 : ℤ) * 2 ^ e = s := by exact_mod_cast h
    have hs' : s.natAbs < 16777216 := by norm_num at hs; exact hs
    have h1 : (1 : ℤ) ≤ 2 ^ e := by
      have := pow_pos (show (0 : ℤ) < 2 by norm_num) e
      omega
    have hbig : (16777217 : ℤ) ≤ s := by nlinarith
    omega

/-! Theorems settling the claims. -/

/-- C1: for every pair of collision models A and B, the contact gate
CanCollide, defined from GetFamilyGroup and GetFamilyMask, is symmetric. -/
theorem canCollide_symm (A B : ChCollisionModel) :
    CanCollide A B = CanCollide B A := by
  unfold CanCollide
  exact Bool.and_comm _ _

/-- C2: starting from a freshly constructed model, after any sequence of
SetFamily and SetFamilyGroup calls each satisfying its documented
precondition, GetFamilyGroup returns a value with exactly one bit set. -/
theorem family_group_single_bit (envelope margin : ℚ) (cs : List FamilyCall)
    (hv : ∀ c ∈ cs, FamilyCallValid c) :
    popCount16 (GetFamilyGroup
      (applyFamilyCalls cs (mkChCollisionModel envelope margin))) = 1 :=
  applyFamilyCalls_single_bit cs (mkChCollisionModel envelope margin)
    (show popCount16 1 = 1 by decide) hv

/-- Witness for C2 at the concrete call sequence
[SetFamily 3, SetFamilyGroup 16]. -/
theorem family_group_single_bit_witness :
    popCount16 (GetFamilyGroup
      (applyFamilyCalls [FamilyCall.setFamily 3, FamilyCall.setFamilyGroup 16]
        (mkChCollisionModel 0 0))) = 1 :=
  family_group_single_bit 0 0
    [FamilyCall.setFamily 3, FamilyCall.setFamilyGroup 16] (by decide)

/-- C3: a freshly constructed ChCollisionModel has GetFamilyMask equal to
0xFFFF and belongs to family 0: GetFamilyGroup has only bit 0 set. -/
theorem fresh_model_defaults (envelope margin : ℚ) :
    GetFamilyMask (mkChCollisionModel envelope margin) = 65535 ∧
    GetFamilyGroup (mkChCollisionModel envelope margin) = 1 ∧
    ∀ k : ℕ, (GetFamilyGroup (mkChCollisionModel envelope margin)).testBit k =
      decide (k = 0) := by
  refine ⟨rfl, rfl, ?_⟩
  intro k
  cases k with
  | zero =>
      show Nat.testBit 1 0 = decide ((0 : ℕ) = 0)
      decide
  | succ n =>
      show Nat.testBit (2 ^ 0) (n + 1) = decide (n + 1 = 0)
      rw [Nat.testBit_two_pow_of_ne (by omega)]
      simp

/-- C4: AddPoint(r, p) leaves the model state, in particular the shape
registry, exactly as AddSphere(r, p) does, for every backend. -/
theorem addPoint_same_registry_as_addSphere (b : Backend) (radius : ℚ)
    (pos : ChVector) (m : ChCollisionModel) :
    (AddPoint b radius pos m).1 = (AddSphere b radius pos m).1 ∧
    (AddPoint b radius pos m).1.m_shapes = (AddSphere b radius pos m).1.m_shapes :=
  ⟨rfl, rfl⟩

/-- C5: the default Add2Dpath implementation returns true and adds no shape:
the registry and GetNumShapes are unchanged. -/
theorem add2Dpath_default_noop (mpath : ChLinePath) (pos : ChVector)
    (rot : ChMatrix33) (thickness : ℚ) (m : ChCollisionModel) :
    (Add2Dpath mpath pos rot thickness m).2 = true ∧
    (Add2Dpath mpath pos rot thickness m).1.m_shapes = m.m_shapes ∧
    GetNumShapes (Add2Dpath mpath pos rot thickness m).1 = GetNumShapes m :=
  ⟨rfl, rfl, rfl⟩

/-- C6: for every model (hence every pair of safe-margin and envelope
values, including zero), GetSuggestedFullMargin equals GetSafeMargin plus
GetEnvelope. -/
theorem suggested_full_margin_eq_sum (m : ChCollisionModel) :
    GetSuggestedFullMargin m = GetSafeMargin m + GetEnvelope m := by
  unfold GetSuggestedFullMargin GetSafeMargin GetEnvelope
  exact add_comm _ _

/-- C7: for a 16-bit mask and family index k in 0..15, clearing collision
with family k makes the membership test false, setting it afterwards makes
it true again, and either setter leaves every bit other than bit k
unchanged. -/
theorem family_mask_setter_roundtrip (m : ChCollisionModel) (k : ℕ)
    (hk : k ≤ 15) (hmask : m.family_mask < 65536) :
    GetFamilyMaskDoesCollisionWithFamily k
      (SetFamilyMaskNoCollisionWithFamily k m) = false ∧
    GetFamilyMaskDoesCollisionWithFamily k
      (SetFamilyMaskDoCollisionWithFamily k
        (SetFamilyMaskNoCollisionWithFamily k m)) = true ∧
    ∀ j, j ≠ k →
      ((SetFamilyMaskNoCollisionWithFamily k m).family_mask.testBit j =
          m.family_mask.testBit j ∧
       (SetFamilyMaskDoCollisionWithFamily k m).family_mask.testBit j =
          m.family_mask.testBit j) := by
  have h65535 : (65535 : ℕ) = 2 ^ 16 - 1 := by norm_num
  have h65536 : (65536 : ℕ) = 2 ^ 16 := by norm_num
  have htwok : (2 : ℕ) ^ k < 65536 := by
    rw [h65536]
    exact Nat.pow_lt_pow_right (by norm_num) (by omega)
  have hhigh : ∀ j, 16 ≤ j → m.family_mask.testBit j = false := by
    intro j hj
    refine Nat.testBit_lt_two_pow (lt_of_lt_of_le (h65536 ▸ hmask) ?_)
    exact Nat.pow_le_pow_right (by norm_num) hj
  refine ⟨?_, ?_, ?_⟩
  · rw [getFamilyMaskDoes_eq_testBit]
    show (m.family_mask &&& (2 ^ k ^^^ 65535)).testBit k = false
    rw [Nat.testBit_and, Nat.testBit_xor, Nat.testBit_two_pow_self,
      h65535, Nat.testBit_two_pow_sub_one]
    simp [hk, Nat.lt_succ_iff.mpr hk, show k < 16 by omega]
  · rw [getFamilyMaskDoes_eq_testBit]
    show ((((m.family_mask &&& (2 ^ k ^^^ 65535)) ||| 2 ^ k) % 65536)).testBit k = true
    have hlt : (m.family_mask &&& (2 ^ k ^^^ 65535)) ||| 2 ^ k < 65536 := by
      rw [h65536]
      refine Nat.or_lt_two_pow ?_ (h65536 ▸ htwok)
      exact lt_of_le_of_lt Nat.and_le_left (h65536 ▸ hmask)
    rw [Nat.mod_eq_of_lt hlt, Nat.testBit_or, Nat.testBit_two_pow_self]
    simp
  · intro j hj
    constructor
    · show (m.family_mask &&& (2 ^ k ^^^ 65535)).testBit j = m.family_mask.testBit j
      rw [Nat.testBit_and, Nat.testBit_xor,
        Nat.testBit_two_pow_of_ne (fun h => hj h.symm),
        h65535, Nat.testBit_two_pow_sub_one]
      by_cases hj16 : j < 16
      · simp [hj16]
      · simp [hj16, hhigh j (by omega)]
    · show ((m.family_mask ||| 2 ^ k) % 65536).testBit j = m.family_mask.testBit j
      rw [h65536, Nat.testBit_mod_two_pow, Nat.testBit_or,
        Nat.testBit_two_pow_of_ne (fun h => hj h.symm)]
      by_cases hj16 : j < 16
      · simp [hj16]
      · simp [hj16, hhigh j (by omega)]

/-- Witness for C7 at family index 3 on a fresh model. -/
theorem family_mask_setter_roundtrip_witness :
    GetFamilyMaskDoesCollisionWithFamily 3
      (SetFamilyMaskNoCollisionWithFamily 3 (mkChCollisionModel 0 0)) = false ∧
    GetFamilyMaskDoesCollisionWithFamily 3
      (SetFamilyMaskDoCollisionWithFamily 3
        (SetFamilyMaskNoCollisionWithFamily 3 (mkChCollisionModel 0 0))) = true :=
  ⟨(family_mask_setter_roundtrip (mkChCollisionModel 0 0) 3 (by decide) (by decide)).1,
   (family_mask_setter_roundtrip (mkChCollisionModel 0 0) 3 (by decide) (by decide)).2.1⟩

/-- C8: under the in-range precondition, GetShape returns exactly the shape
stored at that registry position and never reaches the error branch of the
embedded fallible indexing. -/
theorem getShape_in_range (m : ChCollisionModel) (index : ℕ)
    (h : index < GetNumShapes m) :
    GetShape m index = some (m.m_shapes.get ⟨index, h⟩) ∧
    (GetShape m index).isSome = true := by
  have heq : GetShape m index = some (m.m_shapes.get ⟨index, h⟩) :=
    List.get?_eq_get h
  exact ⟨heq, by rw [heq]; rfl⟩

/-- Witness for C8 on a model holding one sphere shape. -/
theorem getShape_in_range_witness :
    GetShape ⟨1, 65535, 0, 0, [ChCollisionShape.sphere 2 ⟨0, 0, 0⟩]⟩ 0 =
      some (ChCollisionShape.sphere 2 ⟨0, 0, 0⟩) :=
  (getShape_in_range ⟨1, 65535, 0, 0, [ChCollisionShape.sphere 2 ⟨0, 0, 0⟩]⟩ 0
    (by decide)).1

/-- C9: AddPoint returns true unconditionally, discarding the boolean result
of the delegated AddSphere call, even on a backend whose AddSphere returns
false. -/
theorem addPoint_reports_success (b : Backend) (radius : ℚ) (pos : ChVector)
    (m : ChCollisionModel) (h : (AddSphere b radius pos m).2 = false) :
    (AddPoint b radius pos m).2 = true := rfl

/-- Witness for C9 on a backend that does not support spheres. -/
theorem addPoint_reports_success_witness :
    (AddSphere ⟨false⟩ 0 ⟨0, 0, 0⟩ (mkChCollisionModel 0 0)).2 = false ∧
    (AddPoint ⟨false⟩ 0 ⟨0, 0, 0⟩ (mkChCollisionModel 0 0)).2 = true :=
  ⟨rfl, addPoint_reports_success ⟨false⟩ 0 ⟨0, 0, 0⟩ (mkChCollisionModel 0 0) rfl⟩

/-- C10: SetSafeMargin and SetEnvelope store their argument narrowed by the
float cast and the getters return that stored float; for any narrowing that
lands in the binary32-representable rationals, the set/get pair does not
round-trip the double 16777217 = 2 ^ 24 + 1. -/
theorem setSafeMargin_no_roundtrip (toF32 : ℚ → ℚ)
    (hf : ∀ q, IsFloat32 (toF32 q)) (m : ChCollisionModel) :
    (∀ d, GetSafeMargin (SetSafeMargin toF32 d m) = toF32 d ∧
          GetEnvelope (SetEnvelope toF32 d m) = toF32 d) ∧
    GetSafeMargin (SetSafeMargin toF32 16777217 m) ≠ 16777217 ∧
    GetEnvelope (SetEnvelope toF32 16777217 m) ≠ 16777217 := by
  refine ⟨fun d => ⟨rfl, rfl⟩, ?_, ?_⟩
  · show toF32 16777217 ≠ 16777217
    intro hcontra
    exact not_isFloat32_16777217 (hcontra ▸ hf 16777217)
  · show toF32 16777217 ≠ 16777217
    intro hcontra
    exact not_isFloat32_16777217 (hcontra ▸ hf 16777217)

/-- Witness for C10 at a narrowing cast that rounds 2 ^ 24 + 1 down to
2 ^ 24, which is binary32-representable as 1 * 2 ^ 24. -/
theorem setSafeMargin_no_roundtrip_witness :
    GetSafeMargin (SetSafeMargin (fun _ => 16777216) 16777217
      (mkChCollisionModel 0 0)) ≠ 16777217 :=
  (setSafeMargin_no_roundtrip (fun _ => 16777216)
    (fun _ => ⟨1, 24, by decide, Or.inl (by norm_num)⟩)
    (mkChCollisionModel 0 0)).2.1

end Chrono
